import Mathlib

/-!
Verification of `Buffer<_Typ>` (src/buffer.h): a direction-configurable
double-ended buffer built on `std::deque`, with single/batch push, single
pop and drain-all pop, plus a size query.

The deque content is modelled as a `List`, front element first.  The C++
single `pop(_Typ &data)` writes through an output parameter only when the
deque is non-empty; it is embedded as a function from the caller's current
variable value to the pair (final variable value, new buffer state).
-/

/-- `enum class PushPopType`: buffer access direction control. -/
inductive PushPopType where
  | Front
  | Rear
deriving DecidableEq, Repr

/-- The state of a `Buffer<_Typ>` instance: the two direction fields set at
construction and the `std::deque<_Typ> m_buffer`, listed front first.  The
mutex is not part of the sequential state. -/
structure Buffer (α : Type) where
  m_ePushType : PushPopType
  m_ePopType : PushPopType
  m_buffer : List α
deriving DecidableEq, Repr

/-- `Buffer::Buffer(ePushTyp, ePopTyp)`: records the two direction fields
and starts with an empty deque (`m_buffer.resize(0)`). -/
def Buffer.mkBuf (α : Type) (ePushTyp ePopTyp : PushPopType) : Buffer α :=
  ⟨ePushTyp, ePopTyp, []⟩

/-- The default constructor call `Buffer()`: `push_end = Rear`,
`pop_end = Front` (the FIFO configuration). -/
def Buffer.defaultBuf (α : Type) : Buffer α :=
  Buffer.mkBuf α PushPopType.Rear PushPopType.Front

/-- `Buffer::push(_Typ &data)`: `emplace_front` when `m_ePushType` is
`Front`, `emplace_back` when it is `Rear`. -/
def Buffer.push {α : Type} (b : Buffer α) (data : α) : Buffer α :=
  match b.m_ePushType with
  | PushPopType.Front => { b with m_buffer := data :: b.m_buffer }
  | PushPopType.Rear => { b with m_buffer := b.m_buffer ++ [data] }

/-- `Buffer::push(std::vector<_Typ> &dataList)`: one lock acquisition, then
each element of the list is inserted at the configured push end, in list
order (the per-element `switch` is the body of `Buffer::push`). -/
def Buffer.pushList {α : Type} (b : Buffer α) (dataList : List α) : Buffer α :=
  dataList.foldl (fun acc data =>
    match acc.m_ePushType with
    | PushPopType.Front => { acc with m_buffer := data :: acc.m_buffer }
    | PushPopType.Rear => { acc with m_buffer := acc.m_buffer ++ [data] }) b

/-- `Buffer::pop(_Typ &data)`: `data` is the caller's output variable.  When
the deque is non-empty, the element at the pop end (`front()`/`back()`) is
copied into it and removed (`pop_front()`/`pop_back()`); when empty, the
variable is left unchanged and no mutation happens.  The result is the
final value of the variable together with the new buffer state. -/
def Buffer.pop {α : Type} (b : Buffer α) (data : α) : α × Buffer α :=
  match b.m_buffer with
  | [] => (data, b)
  | x :: xs =>
    match b.m_ePopType with
    | PushPopType.Front => (x, { b with m_buffer := xs })
    | PushPopType.Rear =>
        ((x :: xs).getLast (by simp), { b with m_buffer := (x :: xs).dropLast })

/-- `Buffer::pop(std::vector<_Typ> &dataList)` (drain): when non-empty,
every element is appended (`emplace_back`) to the caller's vector —
front-to-rear order for a `Front` pop end, rear-to-front (the `reverse`
iteration helper) for a `Rear` pop end — and then the deque is cleared;
when already empty, nothing happens. -/
def Buffer.drain {α : Type} (b : Buffer α) (dataList : List α) : List α × Buffer α :=
  match b.m_buffer with
  | [] => (dataList, b)
  | x :: xs =>
    match b.m_ePopType with
    | PushPopType.Front => (dataList ++ (x :: xs), { b with m_buffer := [] })
    | PushPopType.Rear => (dataList ++ (x :: xs).reverse, { b with m_buffer := [] })

/-- `Buffer::size()`: the current element count of the deque. -/
def Buffer.size {α : Type} (b : Buffer α) : Nat :=
  b.m_buffer.length

/-- A sequence of single `push` calls, left to right. -/
def Buffer.pushAll {α : Type} (b : Buffer α) (ps : List α) : Buffer α :=
  ps.foldl Buffer.push b

/-- `n` successive single `pop` calls, recording the caller's variable value
after each call; the variable carries over between calls, as a reused local
would. -/
def Buffer.popSeq {α : Type} (b : Buffer α) (data : α) : Nat → List α × Buffer α
  | 0 => ([], b)
  | n + 1 =>
    let r := b.pop data
    let rest := Buffer.popSeq r.2 r.1 n
    (r.1 :: rest.1, rest.2)

/-! ### Basic unfolding lemmas -/

lemma Buffer.pushAll_rear {α : Type} (q : PushPopType) (ps : List α) :
    ∀ l : List α, Buffer.pushAll ⟨PushPopType.Rear, q, l⟩ ps =
      ⟨PushPopType.Rear, q, l ++ ps⟩ := by
  induction ps with
  | nil => intro l; simp [Buffer.pushAll]
  | cons p ps ih =>
      intro l
      have h1 : Buffer.pushAll ⟨PushPopType.Rear, q, l⟩ (p :: ps) =
          Buffer.pushAll ⟨PushPopType.Rear, q, l ++ [p]⟩ ps := by
        simp [Buffer.pushAll, Buffer.push, List.foldl]
      rw [h1, ih]
      simp

lemma Buffer.pushAll_front {α : Type} (q : PushPopType) (ps : List α) :
    ∀ l : List α, Buffer.pushAll ⟨PushPopType.Front, q, l⟩ ps =
      ⟨PushPopType.Front, q, ps.reverse ++ l⟩ := by
  induction ps with
  | nil => intro l; simp [Buffer.pushAll]
  | cons p ps ih =>
      intro l
      have h1 : Buffer.pushAll ⟨PushPopType.Front, q, l⟩ (p :: ps) =
          Buffer.pushAll ⟨PushPopType.Front, q, p :: l⟩ ps := by
        simp [Buffer.pushAll, Buffer.push, List.foldl]
      rw [h1, ih]
      simp

lemma Buffer.pushList_eq_pushAll {α : Type} (b : Buffer α) (ds : List α) :
    b.pushList ds = b.pushAll ds := by
  rfl

lemma Buffer.pop_front_cons {α : Type} (p : PushPopType) (x : α) (xs : List α) (d : α) :
    Buffer.pop ⟨p, PushPopType.Front, x :: xs⟩ d = (x, ⟨p, PushPopType.Front, xs⟩) := by
  rfl

lemma Buffer.pop_rear_ne {α : Type} (p : PushPopType) (l : List α) (d : α)
    (h : l ≠ []) :
    Buffer.pop ⟨p, PushPopType.Rear, l⟩ d =
      (l.getLast h, ⟨p, PushPopType.Rear, l.dropLast⟩) := by
  cases l with
  | nil => exact absurd rfl h
  | cons x xs => rfl

lemma Buffer.popSeq_front {α : Type} (p : PushPopType) (l : List α) :
    ∀ d : α, Buffer.popSeq ⟨p, PushPopType.Front, l⟩ d l.length =
      (l, ⟨p, PushPopType.Front, []⟩) := by
  induction l with
  | nil => intro d; rfl
  | cons x xs ih =>
      intro d
      simp only [List.length_cons, Buffer.popSeq, Buffer.pop_front_cons, ih x]

lemma Buffer.popSeq_rear {α : Type} (p : PushPopType) (l : List α) :
    ∀ d : α, Buffer.popSeq ⟨p, PushPopType.Rear, l⟩ d l.length =
      (l.reverse, ⟨p, PushPopType.Rear, []⟩) := by
  induction l using List.reverseRecOn with
  | nil => intro d; rfl
  | append_singleton xs x ih =>
      intro d
      have hlen : (xs ++ [x]).length = xs.length + 1 := by simp
      have hne : xs ++ [x] ≠ [] := by simp
      rw [hlen]
      simp only [Buffer.popSeq, Buffer.pop_rear_ne p (xs ++ [x]) d hne]
      rw [List.getLast_append, List.dropLast_concat]
      simp [ih]

lemma Buffer.drain_front {α : Type} (p : PushPopType) (l ds : List α) :
    Buffer.drain ⟨p, PushPopType.Front, l⟩ ds = (ds ++ l, ⟨p, PushPopType.Front, []⟩) := by
  cases l with
  | nil => simp [Buffer.drain]
  | cons x xs => rfl

lemma Buffer.drain_rear {α : Type} (p : PushPopType) (l ds : List α) :
    Buffer.drain ⟨p, PushPopType.Rear, l⟩ ds = (ds ++ l.reverse, ⟨p, PushPopType.Rear, []⟩) := by
  cases l with
  | nil => simp [Buffer.drain]
  | cons x xs => rfl

/-! ### Operation traces, for the size-accuracy property -/

/-- One sequential operation on a buffer: single push, batch push, single
pop, or drain. -/
inductive BufOp (α : Type) where
  | push1 (v : α)
  | pushN (vs : List α)
  | pop1
  | drainAll
deriving DecidableEq, Repr

/-- Apply one operation to a buffer state (`d` seeds the caller's pop
variable; its value cannot affect the resulting state). -/
def Buffer.applyOp {α : Type} (d : α) (b : Buffer α) : BufOp α → Buffer α
  | BufOp.push1 v => b.push v
  | BufOp.pushN vs => b.pushList vs
  | BufOp.pop1 => (b.pop d).2
  | BufOp.drainAll => (b.drain []).2

/-- Run a trace of operations left to right. -/
def Buffer.runOps {α : Type} (d : α) (b : Buffer α) (ops : List (BufOp α)) : Buffer α :=
  ops.foldl (Buffer.applyOp d) b

/-- Number of items an operation inserts. -/
def BufOp.pushed {α : Type} : BufOp α → Nat
  | BufOp.push1 _ => 1
  | BufOp.pushN vs => vs.length
  | BufOp.pop1 => 0
  | BufOp.drainAll => 0

/-- Total number of items a trace inserts. -/
def pushedCount {α : Type} (ops : List (BufOp α)) : Nat :=
  (ops.map BufOp.pushed).sum

/-- Number of items an operation actually removes from state `b`: a single
pop removes one item unless the buffer is empty; a drain removes them
all. -/
def Buffer.removedBy {α : Type} (b : Buffer α) : BufOp α → Nat
  | BufOp.pop1 => match b.m_buffer with
    | [] => 0
    | _ :: _ => 1
  | BufOp.drainAll => b.size
  | BufOp.push1 _ => 0
  | BufOp.pushN _ => 0

/-- Total number of items a trace actually removes, starting from `b`. -/
def Buffer.removedCount {α : Type} (d : α) (b : Buffer α) : List (BufOp α) → Nat
  | [] => 0
  | op :: ops => b.removedBy op + Buffer.removedCount d (b.applyOp d op) ops

lemma Buffer.size_push {α : Type} (b : Buffer α) (v : α) :
    (b.push v).size = b.size + 1 := by
  cases b with
  | mk p q l => cases p <;> simp [Buffer.push, Buffer.size]

lemma Buffer.size_pushList {α : Type} (b : Buffer α) (vs : List α) :
    (b.pushList vs).size = b.size + vs.length := by
  cases b with
  | mk p q l =>
      rw [Buffer.pushList_eq_pushAll]
      cases p with
      | Front => rw [Buffer.pushAll_front]; simp [Buffer.size, Nat.add_comm]
      | Rear => rw [Buffer.pushAll_rear]; simp [Buffer.size]

lemma Buffer.size_pop {α : Type} (b : Buffer α) (d : α) :
    ((b.pop d).2).size + b.removedBy BufOp.pop1 = b.size := by
  cases b with
  | mk p q l =>
      cases l with
      | nil => simp [Buffer.pop, Buffer.removedBy, Buffer.size]
      | cons x xs =>
          cases q with
          | Front => simp [Buffer.pop, Buffer.removedBy, Buffer.size]
          | Rear => simp [Buffer.pop, Buffer.removedBy, Buffer.size]

lemma Buffer.size_drain {α : Type} (b : Buffer α) :
    ((b.drain []).2).size + b.removedBy BufOp.drainAll = b.size := by
  cases b with
  | mk p q l =>
      cases l with
      | nil => simp [Buffer.drain, Buffer.removedBy, Buffer.size]
      | cons x xs =>
          cases q with
          | Front => simp [Buffer.drain, Buffer.removedBy, Buffer.size]
          | Rear => simp [Buffer.drain, Buffer.removedBy, Buffer.size]

lemma Buffer.size_applyOp {α : Type} (d : α) (b : Buffer α) (op : BufOp α) :
    (b.applyOp d op).size + b.removedBy op = b.size + op.pushed := by
  cases op with
  | push1 v => simp [Buffer.applyOp, Buffer.removedBy, BufOp.pushed, Buffer.size_push]
  | pushN vs => simp [Buffer.applyOp, Buffer.removedBy, BufOp.pushed, Buffer.size_pushList]
  | pop1 => simpa [Buffer.applyOp, BufOp.pushed] using Buffer.size_pop b d
  | drainAll => simpa [Buffer.applyOp, BufOp.pushed] using Buffer.size_drain b

lemma Buffer.runOps_size {α : Type} (d : α) (ops : List (BufOp α)) :
    ∀ b : Buffer α,
      (Buffer.runOps d b ops).size + Buffer.removedCount d b ops =
        b.size + pushedCount ops := by
  induction ops with
  | nil => intro b; simp [Buffer.runOps, Buffer.removedCount, pushedCount]
  | cons op ops ih =>
      intro b
      have h1 : (Buffer.runOps d b (op :: ops)).size =
          (Buffer.runOps d (b.applyOp d op) ops).size := rfl
      have h2 : Buffer.removedCount d b (op :: ops) =
          b.removedBy op + Buffer.removedCount d (b.applyOp d op) ops := rfl
      have h3 : pushedCount (op :: ops) = op.pushed + pushedCount ops := by
        simp [pushedCount]
      have h4 := ih (b.applyOp d op)
      have h5 := Buffer.size_applyOp d b op
      rw [h1, h2, h3]
      omega

/-! ### Claims -/

/-- C1: with the default configuration (push_end = Rear, pop_end = Front),
pushing p1, …, pn on an empty buffer and then performing n single pops
returns p1, …, pn in that order (FIFO, oldest first). -/
theorem C1_fifo_default {α : Type} (ps : List α) (d : α) :
    (Buffer.popSeq ((Buffer.defaultBuf α).pushAll ps) d ps.length).1 = ps := by
  have h : (Buffer.defaultBuf α).pushAll ps =
      ⟨PushPopType.Rear, PushPopType.Front, ps⟩ := by
    simpa using Buffer.pushAll_rear (α := α) PushPopType.Front ps []
  rw [h, Buffer.popSeq_front]

/-- C2: for every buffer state (any configuration, any content), `drain`
into an empty vector returns exactly the values that `size` successive
single pops would return, and leaves the buffer with size 0. -/
theorem C2_drain_equiv_pops {α : Type} (b : Buffer α) (d : α) :
    (b.drain []).1 = (Buffer.popSeq b d b.size).1 ∧ ((b.drain []).2).size = 0 := by
  cases b with
  | mk p q l =>
      cases q with
      | Front =>
          rw [Buffer.drain_front]
          have h := Buffer.popSeq_front (α := α) p l d
          simp [Buffer.size, h]
      | Rear =>
          rw [Buffer.drain_rear]
          have h := Buffer.popSeq_rear (α := α) p l d
          simp [Buffer.size, h]

/-- C3: batch push inserts each input item at the push end in input order,
so it produces exactly the state of the corresponding sequential single
pushes; in particular, with push_end = Front and pop_end = Front, pushing
the batch [1, 2, 3] and then performing three single pops yields 3, 2, 1. -/
theorem C3_batch_push_order :
    (∀ (α : Type) (b : Buffer α) (xs : List α), b.pushList xs = b.pushAll xs) ∧
    (Buffer.popSeq
      ((Buffer.mkBuf Nat PushPopType.Front PushPopType.Front).pushList [1, 2, 3])
      0 3).1 = [3, 2, 1] := by
  constructor
  · intro α b xs
    exact Buffer.pushList_eq_pushAll b xs
  · rfl

/-- C4: evaluation of the code at the failing input for the empty-pop
signalling contract: popping an empty buffer leaves the caller's variable
unchanged, so the observable outcome of popping an empty buffer with the
variable holding 5 is identical to popping a buffer that held 5 — the
caller cannot distinguish "buffer was empty" from "an item was
returned". -/
theorem C4_empty_pop_no_signal :
    Buffer.pop (Buffer.mkBuf Nat PushPopType.Rear PushPopType.Front) 5 =
      (5, Buffer.mkBuf Nat PushPopType.Rear PushPopType.Front) ∧
    Buffer.pop ⟨PushPopType.Rear, PushPopType.Front, [5]⟩ 0 =
      (5, Buffer.mkBuf Nat PushPopType.Rear PushPopType.Front) := by
  constructor <;> rfl

/-- C5: with push_end = Rear and pop_end = Rear, pushing p1, …, pn on an
empty buffer and then performing n single pops returns pn, …, p1 (LIFO,
most recent first). -/
theorem C5_lifo_rear_rear {α : Type} (ps : List α) (d : α) :
    (Buffer.popSeq ((Buffer.mkBuf α PushPopType.Rear PushPopType.Rear).pushAll ps)
      d ps.length).1 = ps.reverse := by
  have h : (Buffer.mkBuf α PushPopType.Rear PushPopType.Rear).pushAll ps =
      ⟨PushPopType.Rear, PushPopType.Rear, ps⟩ := by
    simpa using Buffer.pushAll_rear (α := α) PushPopType.Rear ps []
  rw [h, Buffer.popSeq_rear]

/-- C6 counterexample: popping an empty buffer does not signal "no value" —
with the caller's variable holding 7, the observable result of popping an
empty buffer is exactly the observable result of popping a buffer that
held 7, so the pop on empty does not produce a distinguishable empty
signal. -/
theorem C6_no_empty_signal_cex :
    Buffer.pop (Buffer.mkBuf Nat PushPopType.Rear PushPopType.Front) 7 =
      Buffer.pop ⟨PushPopType.Rear, PushPopType.Front, [7]⟩ 7 := by
  rfl

/-- C6 (amended): `pop` and `drain` on an empty buffer never mutate the
buffer state, however often repeated; `drain` appends nothing to the
caller's vector (empty drained sequence), while `pop` leaves the caller's
output variable unchanged (rather than delivering an explicit no-value
signal). -/
theorem C6_empty_pop_drain_noop {α : Type} (b : Buffer α) (ds : List α) (d : α)
    (h : b.m_buffer = []) :
    b.drain ds = (ds, b) ∧ b.pop d = (d, b) := by
  cases b with
  | mk p q l =>
      cases l with
      | nil => exact ⟨rfl, rfl⟩
      | cons x xs => simp at h

/-- Witness for C6: the empty default buffer. -/
theorem C6_empty_pop_drain_noop_witness :
    Buffer.drain (Buffer.mkBuf Nat PushPopType.Rear PushPopType.Front) [3] =
      ([3], Buffer.mkBuf Nat PushPopType.Rear PushPopType.Front) ∧
    Buffer.pop (Buffer.mkBuf Nat PushPopType.Rear PushPopType.Front) 9 =
      (9, Buffer.mkBuf Nat PushPopType.Rear PushPopType.Front) :=
  C6_empty_pop_drain_noop (Buffer.mkBuf Nat PushPopType.Rear PushPopType.Front) [3] 9 rfl

/-- C7: starting from an empty buffer in any configuration, after any
sequential trace of pushes (single or batch) and pops/drains, `size`
equals the number of items pushed minus the number of items actually
removed; moreover every single push increases `size` by exactly 1, and a
single pop on a non-empty buffer decreases it by exactly 1. -/
theorem C7_size_accuracy {α : Type} (p q : PushPopType) (d : α)
    (ops : List (BufOp α)) :
    ((Buffer.runOps d (Buffer.mkBuf α p q) ops).size +
        Buffer.removedCount d (Buffer.mkBuf α p q) ops = pushedCount ops) ∧
    (∀ (b : Buffer α) (v : α), (b.push v).size = b.size + 1) ∧
    (∀ (b : Buffer α) (e : α), b.m_buffer ≠ [] → ((b.pop e).2).size = b.size - 1) := by
  refine ⟨?_, ?_, ?_⟩
  · have h := Buffer.runOps_size d ops (Buffer.mkBuf α p q)
    simpa [Buffer.mkBuf, Buffer.size] using h
  · intro b v
    exact Buffer.size_push b v
  · intro b e h
    have hs := Buffer.size_pop b e
    cases b with
    | mk bp bq l =>
        cases l with
        | nil => exact absurd rfl h
        | cons x xs =>
            simp only [Buffer.removedBy] at hs
            omega

/-- Witness for C7: a concrete trace (push 3, push 4, pop, drain) in the
default configuration, and a concrete non-empty single pop. -/
theorem C7_size_accuracy_witness :
    ((Buffer.runOps 0 (Buffer.mkBuf Nat PushPopType.Rear PushPopType.Front)
        [BufOp.push1 3, BufOp.push1 4, BufOp.pop1, BufOp.drainAll]).size +
      Buffer.removedCount 0 (Buffer.mkBuf Nat PushPopType.Rear PushPopType.Front)
        [BufOp.push1 3, BufOp.push1 4, BufOp.pop1, BufOp.drainAll] =
      pushedCount [BufOp.push1 3, BufOp.push1 4, BufOp.pop1,
        (BufOp.drainAll : BufOp Nat)]) ∧
    ((Buffer.mk PushPopType.Rear PushPopType.Front [5, 6]).pop 0).2.size =
      (Buffer.mk PushPopType.Rear PushPopType.Front [5, 6]).size - 1 := by
  constructor
  · exact (C7_size_accuracy PushPopType.Rear PushPopType.Front 0
      [BufOp.push1 3, BufOp.push1 4, BufOp.pop1, BufOp.drainAll]).1
  · exact (C7_size_accuracy PushPopType.Rear PushPopType.Front (0 : Nat) []).2.2
      (Buffer.mk PushPopType.Rear PushPopType.Front [5, 6]) 0 (by simp)

/-- C8: no operation changes the configuration fields: push (single and
batch), pop and drain all leave `m_ePushType` and `m_ePopType` exactly as
the constructor set them. -/
theorem C8_config_immutable {α : Type} (b : Buffer α) (v : α) (vs : List α)
    (d : α) (ds : List α) :
    ((b.push v).m_ePushType = b.m_ePushType ∧ (b.push v).m_ePopType = b.m_ePopType) ∧
    ((b.pushList vs).m_ePushType = b.m_ePushType ∧
      (b.pushList vs).m_ePopType = b.m_ePopType) ∧
    (((b.pop d).2).m_ePushType = b.m_ePushType ∧
      ((b.pop d).2).m_ePopType = b.m_ePopType) ∧
    (((b.drain ds).2).m_ePushType = b.m_ePushType ∧
      ((b.drain ds).2).m_ePopType = b.m_ePopType) := by
  cases b with
  | mk p q l =>
      refine ⟨?_, ?_, ?_, ?_⟩
      · cases p <;> simp [Buffer.push]
      · rw [Buffer.pushList_eq_pushAll]
        cases p with
        | Front => rw [Buffer.pushAll_front]; exact ⟨rfl, rfl⟩
        | Rear => rw [Buffer.pushAll_rear]; exact ⟨rfl, rfl⟩
      · cases l with
        | nil => exact ⟨rfl, rfl⟩
        | cons x xs => cases q <;> simp [Buffer.pop]
      · cases l with
        | nil => exact ⟨rfl, rfl⟩
        | cons x xs => cases q <;> simp [Buffer.drain]

/-- C10: drain appends to the caller's vector without clearing it: for any
buffer state and any prior vector contents, the vector after drain is its
prior contents followed by the drained items, and the resulting buffer
state does not depend on the prior vector contents. -/
theorem C10_drain_appends {α : Type} (b : Buffer α) (ds : List α) :
    (b.drain ds).1 = ds ++ (b.drain []).1 ∧ (b.drain ds).2 = (b.drain []).2 := by
  cases b with
  | mk p q l =>
      cases q with
      | Front => rw [Buffer.drain_front, Buffer.drain_front]; exact ⟨by simp, rfl⟩
      | Rear => rw [Buffer.drain_rear, Buffer.drain_rear]; exact ⟨by simp, rfl⟩
